import Mathlib

/-!
Verification of the rsext4 ext4-compatible filesystem library against its
natural-language specification.  The definitions below are a shallow
embedding of the Rust source: machine integers become `Nat` with explicit
`% 2^w` or `&&&` masking where the source truncates, fallible paths return
`Except BlockDevError`, and device I/O becomes explicit state passing over
a block store `Nat → List Nat` together with ordered write traces.

Source files embedded:
  - src/src/ext4_backend/jbd2/jbd2.rs   (commit_transaction, replay)
  - src/src/ext4_backend/extents_tree.rs (find_in_node, insert_recursive leaf case)
  - src/src/ext4_backend/loopfile.rs    (resolve_inode_block, extent branch)
  - src/src/ext4_backend/file.rs        (read_file, write_file)
  - src/src/ext4.rs                     (umount, alloc_block)
  - src/src/ext4_backend/blockdev.rs    (BlockDev, Jbd2Dev::flush)

The repository modules `jbd2/jbdstruct.rs`, `endian.rs`, `bmalloc.rs` and the
three page caches are not present in the source tree; where a definition
depends on them it is modelled from the specification and marked as such in
its doc comment.
-/

namespace Rsext4

/-- Block size in bytes, `config.rs`: `BLOCK_SIZE = 4096`. -/
def BLOCK_SIZE : Nat := 4096

/-- Error enumeration from `blockdev.rs` (the variants the embedded code uses). -/
inductive BlockDevError where
  | ReadError
  | WriteError
  | Unsupported
  | NoSpace
  | Corrupted
  | Unknown
deriving DecidableEq, Repr

/-! ## Little/big endian byte codecs

Modelled from the spec: `endian.rs` is absent from the source tree; spec
section 4.1 states that all on-disk integers are little-endian and that
`from_bytes`/`to_bytes` round-trip.  `be32Bytes` models Rust
`u32::to_be_bytes`, used verbatim by `replay` when restoring escaped magic
bytes. -/

/-- Little-endian 4-byte encoding of a `u32` value. -/
def le32Bytes (v : Nat) : List Nat :=
  [v % 256, v / 256 % 256, v / 65536 % 256, v / 16777216 % 256]

/-- Little-endian 2-byte encoding of a `u16` value. -/
def le16Bytes (v : Nat) : List Nat :=
  [v % 256, v / 256 % 256]

/-- Big-endian 4-byte encoding of a `u32` value (Rust `u32::to_be_bytes`). -/
def be32Bytes (v : Nat) : List Nat :=
  [v / 16777216 % 256, v / 65536 % 256, v / 256 % 256, v % 256]

/-- Read a little-endian `u32` from the first four bytes of a buffer
(Rust `u32::from_le_bytes(buf[0..4])`). -/
def readLE32 (bs : List Nat) : Nat :=
  match bs with
  | b0 :: b1 :: b2 :: b3 :: _ => b0 + b1 * 256 + b2 * 65536 + b3 * 16777216
  | _ => 0

/-- Read a little-endian `u16` from the first two bytes of a buffer. -/
def readLE16 (bs : List Nat) : Nat :=
  match bs with
  | b0 :: b1 :: _ => b0 + b1 * 256
  | _ => 0

/-! ## JBD2 journal model (`jbd2/jbd2.rs`)

The journal block store is a total map from physical block id to byte list.
`commit_transaction` and `replay` from `src/src/ext4_backend/jbd2/jbd2.rs`
are embedded below.  Constants and record layouts come from
`jbd2/jbdstruct.rs`, which is absent from the source tree; they are
modelled from the spec, section 4.12. -/

/-- Modelled from the spec: the JBD2 header magic `0xC03B3998`
(`jbdstruct.rs` is missing; spec section 4.12 gives the value). -/
def JBD2_MAGIC : Nat := 0xC03B3998

/-- Modelled from the spec: the ESCAPE tag flag bit.  `jbdstruct.rs` is
missing; `replay` in `jbd2.rs` hardcodes the check `tag.t_flags & 1` with
the comment `JBD2_FLAG_ESCAPE = 1`. -/
def JOURANL_ESCAPE : Nat := 1

/-- Modelled from the spec: the LAST_TAG flag bit (value 8 as in the JBD2
on-disk format; the claims only need it to be a bit distinct from ESCAPE). -/
def JBD2_FLAG_LAST_TAG : Nat := 8

/-- One queued metadata update `Jbd2Update(u64, [u8; BLOCK_SIZE])`:
target physical block number and the metadata block bytes. -/
structure Jbd2Update where
  blocknr : Nat
  data : List Nat
deriving DecidableEq, Repr

/-- `JournalHeaderS`: 12-byte shared header `(magic, blocktype, sequence)`. -/
structure JournalHeaderS where
  h_magic : Nat
  h_blocktype : Nat
  h_sequence : Nat
deriving DecidableEq, Repr

/-- `JournalBlockTagS`: 8-byte descriptor tag `(t_blocknr, t_checksum, t_flags)`. -/
structure JournalBlockTagS where
  t_blocknr : Nat
  t_checksum : Nat
  t_flags : Nat
deriving DecidableEq, Repr

/-- `JournalSuperBllockS` fields used by `replay`. -/
structure JournalSuperBllockS where
  s_first : Nat
  s_start : Nat
  s_sequence : Nat
  s_maxlen : Nat
deriving DecidableEq, Repr

/-- `JBD2DEVSYSTEM`: in-memory journal state. -/
structure JBD2DEVSYSTEM where
  start_block : Nat
  head : Nat
  max_len : Nat
  sequence : Nat
  jbd2_super_block : JournalSuperBllockS
  commit_queue : List Jbd2Update
deriving DecidableEq, Repr

/-- Modelled from the spec: serialization of `JournalHeaderS`
(`to_disk_bytes`, 12 bytes, little-endian fields per spec section 4.1). -/
def headerToBytes (h : JournalHeaderS) : List Nat :=
  le32Bytes h.h_magic ++ le32Bytes h.h_blocktype ++ le32Bytes h.h_sequence

/-- Modelled from the spec: `JournalHeaderS::from_disk_bytes` on the first
12 bytes of a buffer. -/
def headerFromBytes (bs : List Nat) : JournalHeaderS :=
  { h_magic := readLE32 bs
    h_blocktype := readLE32 (bs.drop 4)
    h_sequence := readLE32 (bs.drop 8) }

/-- Modelled from the spec: serialization of `JournalBlockTagS`
(`to_disk_bytes`, 8 bytes: u32 block number, u16 checksum, u16 flags). -/
def tagToBytes (t : JournalBlockTagS) : List Nat :=
  le32Bytes t.t_blocknr ++ le16Bytes t.t_checksum ++ le16Bytes t.t_flags

/-- Modelled from the spec: `JournalBlockTagS::from_disk_bytes` on the
first 8 bytes of a buffer. -/
def tagFromBytes (bs : List Nat) : JournalBlockTagS :=
  { t_blocknr := readLE32 bs
    t_checksum := readLE16 (bs.drop 4)
    t_flags := readLE16 (bs.drop 6) }

/-- Modelled from the spec: opaque serialization of the journal superblock
(1024-byte buffer; `replay` writes it back but never re-reads it, so only
the fact of the write matters to the claims). -/
def jsbToBytes (sb : JournalSuperBllockS) : List Nat :=
  le32Bytes sb.s_first ++ le32Bytes sb.s_start ++ le32Bytes sb.s_sequence ++
    le32Bytes sb.s_maxlen ++ List.replicate 1008 0

/-- The block device as a total store of byte-list blocks. -/
def Device : Type := Nat → List Nat

/-- Overwrite one block of the device. -/
def devWrite (d : Device) (id : Nat) (bytes : List Nat) : Device :=
  fun k => if k = id then bytes else d k

/-- Pad a buffer with zero bytes up to `BLOCK_SIZE`
(`vec![0; BLOCK_SIZE]` written at increasing offsets). -/
def padBlock (bs : List Nat) : List Nat :=
  bs ++ List.replicate (BLOCK_SIZE - bs.length) 0

/-- `JBD2DEVSYSTEM::set_next_log_block`: advance the head cursor with
wrap-around past `max_len` back to 1, returning the absolute block id. -/
def setNextLogBlock (s : JBD2DEVSYSTEM) : Nat × JBD2DEVSYSTEM :=
  let next := if s.head + 1 ≥ s.max_len then 1 else s.head + 1
  (next + s.start_block, { s with head := next })

/-- The escape test in `commit_transaction`: the first four bytes of the
update, read little-endian, equal the journal magic. -/
def escapeCheck (d : List Nat) : Bool :=
  readLE32 d = JBD2_MAGIC

/-- The escape transform of `commit_transaction`: zero the first four bytes
of the logged copy when they collide with the magic. -/
def escapeData (d : List Nat) : List Nat :=
  if escapeCheck d then 0 :: 0 :: 0 :: 0 :: d.drop 4 else d

/-- The descriptor tags built by `commit_transaction`: one per queued
update, ESCAPE when the data begins with the magic, LAST_TAG on the final
tag (`idx == len - 1`).  `t_blocknr` is `update.0 as u32`. -/
def commitTags (queue : List Jbd2Update) : List JournalBlockTagS :=
  (List.range queue.length).zip queue |>.map fun p =>
    { t_blocknr := p.2.blocknr % 2 ^ 32
      t_checksum := 0
      t_flags :=
        (if escapeCheck p.2.data then JOURANL_ESCAPE else 0) +
        (if p.1 = queue.length - 1 then JBD2_FLAG_LAST_TAG else 0) }

/-- The loop in `commit_transaction` that writes one escaped metadata block
per update to successive log blocks, returning the final journal state, the
updated device and the ordered list of `(log block id, bytes)` writes. -/
def writeLogBlocks :
    JBD2DEVSYSTEM → Device → List (List Nat) →
      JBD2DEVSYSTEM × Device × List (Nat × List Nat)
  | s, dv, [] => (s, dv, [])
  | s, dv, d :: rest =>
    let p := setNextLogBlock s
    let r := writeLogBlocks p.2 (devWrite dv p.1 d) rest
    (r.1, r.2.1, (p.1, d) :: r.2.2)

/-- `JBD2DEVSYSTEM::commit_transaction` (`jbd2.rs` lines 31-156).  Returns
the new journal state, the device after the journal writes, the ordered
write trace `(block id, bytes)` and the `Ok(bool)` result.  The descriptor
header uses the journal magic (modelled from the spec: `JournalHeaderS`
`Default` lives in the missing `jbdstruct.rs`; spec section 4.12 gives the
shared header `(magic=0xC03B3998, blocktype, sequence)`). -/
def commitTransaction (s : JBD2DEVSYSTEM) (dev : Device) :
    JBD2DEVSYSTEM × Device × List (Nat × List Nat) × Bool :=
  if s.commit_queue.length = 0 then
    (s, dev, [], false)
  else
    let tid := s.sequence
    let descBytes :=
      padBlock (headerToBytes ⟨JBD2_MAGIC, 1, tid⟩ ++
        (commitTags s.commit_queue).flatMap tagToBytes)
    let q1 := setNextLogBlock s
    let dev1 := devWrite dev q1.1 descBytes
    let escaped := s.commit_queue.map fun u => escapeData u.data
    let w := writeLogBlocks q1.2 dev1 escaped
    let s2 := { w.1 with commit_queue := [] }
    let commitBytes := padBlock (headerToBytes ⟨JBD2_MAGIC, 2, tid⟩)
    let q2 := setNextLogBlock s2
    let dev2 := devWrite w.2.1 q2.1 commitBytes
    let s3 := { q2.2 with sequence := (q2.2.sequence + 1) % 2 ^ 32 }
    (s3, dev2, (q1.1, descBytes) :: (w.2.2 ++ [(q2.1, commitBytes)]), true)

/-- The tag-parsing loop of `replay` (`jbd2.rs` lines 217-241): read 8-byte
tags from offset 12 while `off + 8 ≤ BLOCK_SIZE`, stopping at an all-zero
tag (excluded) or at a LAST_TAG tag (included).  The fuel counts the at
most `(4096 - 12) / 8` iterations of the Rust `while` loop. -/
def parseTagsAux (buf : List Nat) : Nat → Nat → List JournalBlockTagS
  | 0, _ => []
  | k + 1, off =>
    if off + 8 ≤ BLOCK_SIZE then
      let t := tagFromBytes (buf.drop off)
      if t.t_blocknr = 0 ∧ t.t_checksum = 0 ∧ t.t_flags = 0 then []
      else if t.t_flags &&& JBD2_FLAG_LAST_TAG ≠ 0 then [t]
      else t :: parseTagsAux buf k (off + 8)
    else []

/-- Parse the tags of a descriptor block, skipping the 12-byte header. -/
def parseTags (descBuf : List Nat) : List JournalBlockTagS :=
  parseTagsAux descBuf 510 12

/-- The escape-restore of `replay` (`jbd2.rs` lines 303-311): when the
ESCAPE bit is set, overwrite the first four bytes with
`JBD2_MAGIC.to_be_bytes()`. -/
def restoreEscape (flags : Nat) (d : List Nat) : List Nat :=
  if flags &&& 1 ≠ 0 then be32Bytes JBD2_MAGIC ++ d.drop 4 else d

/-- Advance a journal-relative cursor by one with the wrap rule of `replay`:
`cur += 1; if cur - first >= maxlen { cur = first }`. -/
def replayAdvance (first maxlen cur : Nat) : Nat :=
  if cur + 1 - first ≥ maxlen then first else cur + 1

/-- Apply one committed transaction to the main device (`jbd2.rs` lines
297-317): restore ESCAPE-zeroed magic bytes and write each metadata block
to the target physical block of its tag. -/
def applyTransaction (dev : Device) :
    List JournalBlockTagS → List (List Nat) → Device
  | [], _ => dev
  | _, [] => dev
  | t :: ts, d :: ds =>
    applyTransaction (devWrite dev t.t_blocknr (restoreEscape t.t_flags d)) ts ds

/-- Read `tags.length` metadata log blocks, advancing the relative cursor
with wrap before each read (`jbd2.rs` lines 248-270).  Returns the blocks
and the final cursor. -/
def readMetaBlocks (dev : Device) (start_block first maxlen : Nat) :
    Nat → Nat → List (List Nat) × Nat
  | cur, 0 => ([], cur)
  | cur, n + 1 =>
    let cur' := replayAdvance first maxlen cur
    let r := readMetaBlocks dev start_block first maxlen cur' n
    (dev (start_block + cur') :: r.1, r.2)

/-- One-or-more iterations of the `replay` loop, fuelled.  Each iteration
reads a descriptor, its metadata blocks and a commit block; on any check
failure the loop stops, otherwise the transaction is applied, the in-memory
journal superblock is advanced and written back, and the loop continues. -/
def replayLoop (start_block first maxlen : Nat) :
    Nat → Nat → Nat → JournalSuperBllockS → Device →
      JournalSuperBllockS × Device
  | 0, _, _, jsb, dev => (jsb, dev)
  | fuel + 1, expect, cur, jsb, dev =>
    let descBuf := dev (start_block + cur)
    let hdr := headerFromBytes descBuf
    if hdr.h_magic ≠ JBD2_MAGIC ∨ hdr.h_blocktype ≠ 1 then (jsb, dev)
    else if hdr.h_sequence ≠ expect then (jsb, dev)
    else
      let tags := parseTags descBuf
      if tags.isEmpty then (jsb, dev)
      else
        let m := readMetaBlocks dev start_block first maxlen cur tags.length
        let cur1 := replayAdvance first maxlen m.2
        let cbuf := dev (start_block + cur1)
        let chdr := headerFromBytes cbuf
        if chdr.h_magic ≠ JBD2_MAGIC ∨ chdr.h_blocktype ≠ 2 ∨
            chdr.h_sequence ≠ expect then (jsb, dev)
        else
          let dev1 := applyTransaction dev tags m.1
          let expect1 := (expect + 1) % 2 ^ 32
          let cur2 := replayAdvance first maxlen cur1
          let jsb1 := { jsb with s_sequence := expect1, s_start := cur2 }
          let dev2 :=
            if start_block ≠ 0 then
              devWrite dev1 start_block (jsbToBytes jsb1)
            else dev1
          replayLoop start_block first maxlen fuel expect1 cur2 jsb1 dev2

/-- `JBD2DEVSYSTEM::replay` (`jbd2.rs` lines 159-354): start at `s_start`
(or `s_first` when zero) and replay as many complete consecutive
transactions as the device holds.  The fuel bounds the number of loop
iterations; the claims only evaluate it on concrete devices where the loop
stops by itself within the fuel. -/
def replay (fuel : Nat) (s : JBD2DEVSYSTEM) (dev : Device) :
    JournalSuperBllockS × Device :=
  let cur :=
    if s.jbd2_super_block.s_start = 0 then s.jbd2_super_block.s_first
    else s.jbd2_super_block.s_start
  if s.jbd2_super_block.s_maxlen = 0 then (s.jbd2_super_block, dev)
  else
    replayLoop s.start_block s.jbd2_super_block.s_first
      s.jbd2_super_block.s_maxlen fuel s.jbd2_super_block.s_sequence cur
      s.jbd2_super_block dev

/-! ## Concrete journal scenario for claim C1

One metadata update targeting physical block 7 whose first four bytes are
the little-endian encoding of the journal magic (the exact condition
`u32::from_le_bytes(update.1[0..4]) == JBD2_MAGIC` that `commit_transaction`
treats as an escape).  The journal area starts at physical block 100 and is
10 blocks long; the journal superblock says the next transaction to replay
is sequence 5 starting at `s_first = 1`. -/

/-- The metadata block queued for commit in the C1 scenario: its first four
bytes are the little-endian journal magic. -/
def c1Orig : List Nat := 0x98 :: 0x39 :: 0x3B :: 0xC0 :: List.replicate 4092 7

/-- Journal state for the C1 scenario. -/
def c1Sys : JBD2DEVSYSTEM :=
  { start_block := 100, head := 0, max_len := 10, sequence := 5
    jbd2_super_block := ⟨1, 0, 5, 10⟩
    commit_queue := [⟨7, c1Orig⟩] }

/-- Initial device for the C1 scenario: all blocks zeroed. -/
def c1Dev : Device := fun _ => List.replicate 4096 0

/-! ## Extent tree (`extents_tree.rs`)

`Ext4Extent` is declared in the missing `disknode.rs`; its field list and
widths (`ee_block: u32`, `ee_len: u16`, `ee_start_hi: u16`,
`ee_start_lo: u32`) are evident from every use site in `extents_tree.rs`
and from spec section 3.  The leaf arm of `insert_recursive` (lines
440-549) and of `find_in_node` (lines 249-258) are embedded as pure
functions on the entry list of a leaf node. -/

/-- U32 maximum, the saturation bound of Rust `u32::saturating_add`. -/
def U32_MAX : Nat := 2 ^ 32 - 1

/-- A 12-byte leaf extent record. -/
structure Ext4Extent where
  ee_block : Nat
  ee_len : Nat
  ee_start_hi : Nat
  ee_start_lo : Nat
deriving DecidableEq, Repr

/-- `Ext4Extent::start_block`: `((ee_start_hi as u64) << 32) | ee_start_lo`. -/
def Ext4Extent.start_block (e : Ext4Extent) : Nat :=
  e.ee_start_hi * 2 ^ 32 + e.ee_start_lo

/-- Modelled from the spec: `Ext4Extent::new(lbn, phys, len)` from the
missing `disknode.rs` — a plain initialized extent, physical address split
into high/low halves (the extent leaf layout of spec section 3). -/
def Ext4Extent.new (lbn phys len : Nat) : Ext4Extent :=
  { ee_block := lbn
    ee_len := len % 2 ^ 16
    ee_start_hi := phys / 2 ^ 32 % 2 ^ 16
    ee_start_lo := phys % 2 ^ 32 }

/-- `MAX_LEN` from `insert_recursive`: the merge saturation bound, 32768. -/
def MAX_LEN : Nat := 32768

/-- The insertion position computed by
`entries.binary_search_by_key(&new.ee_block, |e| e.ee_block).unwrap_or_else(|i| i)`.
On a list sorted by `ee_block` with distinct keys (the extent-node
invariant, re-established by the sort in `parse_node_from_bytes`) this is
the first index whose key is `≥` the probe. -/
def leafFindPos (entries : List Ext4Extent) (key : Nat) : Nat :=
  entries.findIdx fun e => decide (key ≤ e.ee_block)

/-- Insert `x` at index `pos` of `l` (`Vec::insert`). -/
def insertAt (l : List α) (pos : Nat) (x : α) : List α :=
  l.take pos ++ [x] ++ l.drop pos

/-- The leaf arm of `ExtentTree::insert_recursive` (`extents_tree.rs` lines
440-549), restricted to the entry-list transformation: the attempted merge
with the preceding extent (including the MAX_LEN saturation with tail
extent) followed, on the fall-through paths, by the plain insertion at
`pos`.  The split logic below line 551 only repartitions the resulting
list between two nodes and never alters an entry, so the stored lengths
asserted by the claims are decided here.  `ehMax` is `header.eh_max`. -/
def insertLeafEntries (ehMax : Nat) (entries : List Ext4Extent)
    (newExt : Ext4Extent) : List Ext4Extent :=
  let pos := leafFindPos entries newExt.ee_block
  let plain := insertAt entries pos newExt
  if pos = 0 then plain
  else
    match entries[pos - 1]? with
    | none => plain
    | some prev =>
      let prev_logical := prev.ee_block
      let prev_len := prev.ee_len &&& 0x7FFF
      let new_logical := newExt.ee_block
      let new_len := newExt.ee_len &&& 0x7FFF
      if prev_len ≠ 0 ∧ new_len ≠ 0 then
        let prev_end := min (prev_logical + prev_len) U32_MAX
        if new_logical = prev_end then
          let prev_phys_start := prev.ee_start_hi * 2 ^ 32 + prev.ee_start_lo
          let new_phys_start := newExt.ee_start_hi * 2 ^ 32 + newExt.ee_start_lo
          if new_phys_start = prev_phys_start + prev_len then
            let total := prev_len + new_len
            let hi_flag := prev.ee_len &&& 0x8000
            if total ≤ MAX_LEN then
              let merged := entries.set (pos - 1)
                { prev with ee_len := (total % 2 ^ 16 &&& 0x7FFF) ||| hi_flag }
              if merged.length ≤ ehMax then merged
              else insertAt merged pos newExt
            else
              let satur := entries.set (pos - 1)
                { prev with ee_len := (MAX_LEN % 2 ^ 16 &&& 0x7FFF) ||| hi_flag }
              let remain := total - MAX_LEN
              if 0 < remain then
                let tail_logical := (prev_logical + MAX_LEN) % 2 ^ 32
                let tail_phys := prev_phys_start + MAX_LEN
                let tail : Ext4Extent :=
                  { ee_block := tail_logical
                    ee_len := (remain % 2 ^ 16 &&& 0x7FFF) ||| (newExt.ee_len &&& 0x8000)
                    ee_start_hi := tail_phys / 2 ^ 32 % 2 ^ 16
                    ee_start_lo := tail_phys % 2 ^ 32 }
                let withTail := insertAt satur pos tail
                if withTail.length ≤ ehMax then withTail
                else insertAt withTail pos newExt
              else insertAt satur pos newExt
          else plain
        else plain
      else plain

/-- The leaf arm of `ExtentTree::find_in_node` (`extents_tree.rs` lines
249-258): scan the entries in order and return the first whose half-open
range `[ee_block, ee_block.saturating_add(ee_len as u32))` contains
`lblock`.  Note the unmasked `ee_len` — the uninit bit participates. -/
def findInLeaf (entries : List Ext4Extent) (lblock : Nat) : Option Ext4Extent :=
  entries.find? fun et =>
    decide (et.ee_block ≤ lblock ∧ lblock < min (et.ee_block + et.ee_len) U32_MAX)

/-- Outcome of the extent branch of `resolve_inode_block`. -/
inductive ResolveOutcome where
  | phys (p : Nat)
  | hole
  | corrupted
  | classicFallback
deriving DecidableEq, Repr

/-- The extent branch of `resolve_inode_block` (`loopfile.rs` lines 23-48)
over a depth-0 (inline root leaf) extent tree: `find_extent` followed by
the masked-length re-check and the physical-address computation.
`classicFallback` marks the path where `find_extent` returns `None` and
the Rust code falls through to the legacy block-pointer logic, which
reinterprets the extent root bytes as pointers; the claim hypotheses
never reach it and it is not modelled further. -/
def resolveExtentPath (entries : List Ext4Extent) (logical_block : Nat) :
    ResolveOutcome :=
  match findInLeaf entries logical_block with
  | none => .classicFallback
  | some ext =>
    let len0 := ext.ee_len
    let len := if len0 &&& 0x8000 ≠ 0 then len0 &&& 0x7FFF else len0
    if len = 0 then .hole
    else if logical_block < ext.ee_block ∨
        min (ext.ee_block + len) U32_MAX ≤ logical_block then .hole
    else
      let base := ext.ee_start_hi * 2 ^ 32 + ext.ee_start_lo
      let phys := base + (logical_block - ext.ee_block)
      if phys > U32_MAX then .corrupted
      else .phys phys

/-! ## Whole-file read (`file.rs`, `read_file`, lines 1095-1133)

The directory walk, inode load and data-block cache are abstracted into
two maps: `resolve` (logical block → physical block, the result of
`resolve_inode_block`) and `blocks` (physical block → cached page bytes).
The loop body is embedded exactly: an unresolved block `break`s the walk,
a resolved one appends the whole cached page. -/

/-- The `for lbn in 0..total_blocks` loop of `read_file`: the first
argument counts the remaining iterations. -/
def readLoop (resolve : Nat → Option Nat) (blocks : Nat → List Nat) :
    Nat → Nat → List Nat
  | 0, _ => []
  | n + 1, lbn =>
    match resolve lbn with
    | none => []
    | some p => blocks p ++ readLoop resolve blocks n (lbn + 1)

/-- `read_file` for a file of the given size: walk
`0..size.div_ceil(BLOCK_SIZE)` and truncate the concatenation to `size`. -/
def readFileModel (size : Nat) (resolve : Nat → Option Nat)
    (blocks : Nat → List Nat) : List Nat :=
  if size = 0 then []
  else (readLoop resolve blocks ((size + BLOCK_SIZE - 1) / BLOCK_SIZE) 0).take size

/-! ## Write at offset (`file.rs`, `write_file`, lines 1135-1279)

The filesystem context of `write_file` is collapsed into the fields the
function touches.  The block allocator (`fs.alloc_block`, defined in the
missing `ext4_backend/ext4.rs`) is modelled from the spec, section 4.4:
it hands out the next free block number or fails with `NoSpace`; the model
carries the upcoming allocator block numbers as a list.  The
extent tree is kept in its depth-0 (inline root leaf) form, inserted into
through `insertLeafEntries`; the data-block cache is a map from physical
block to page bytes (`modify` mutated pages in place). -/

/-- The slice of `write_file` state the embedding tracks. -/
structure WriteFs where
  size : Nat
  isExtent : Bool
  hasExtents : Bool
  tree : List Ext4Extent
  ehMax : Nat
  freeBlocks : List Nat
  i_blocks : Nat
  cache : Nat → List Nat

/-- The pre-extension allocation loop
`for lbn in old_blocks..new_blocks { fs.alloc_block(device)? }`: build the
`(lbn, phys)` map, failing with `None` when the allocator runs dry. -/
def allocLoop (free : List Nat) (lbn : Nat) :
    Nat → Option (List (Nat × Nat) × List Nat)
  | 0 => some ([], free)
  | n + 1 =>
    match free with
    | [] => none
    | p :: rest =>
      match allocLoop rest (lbn + 1) n with
      | none => none
      | some r => some ((lbn, p) :: r.1, r.2)

/-- The inner state of the run-merge scan of `write_file` (lines
1192-1214): current run start, length and last element. -/
def runMergeGo (start_lbn start_phys run_len last_lbn last_phys : Nat) :
    List (Nat × Nat) → List (Nat × Nat × Nat)
  | [] => [(start_lbn, start_phys, run_len)]
  | (cl, cp) :: rest =>
    if cl = last_lbn + 1 ∧ cp = last_phys + 1 then
      runMergeGo start_lbn start_phys (run_len + 1) cl cp rest
    else
      (start_lbn, start_phys, run_len) :: runMergeGo cl cp 1 cl cp rest

/-- Group the `(lbn, phys)` allocation map into maximal runs that are
contiguous both logically and physically, in order. -/
def runMerge : List (Nat × Nat) → List (Nat × Nat × Nat)
  | [] => []
  | (l, p) :: rest => runMergeGo l p 1 l p rest

/-- Insert the extent of every run into the leaf, in run order
(`tree.insert_extent(fs, ext, device)?` per run). -/
def insertRuns (ehMax : Nat) (tree : List Ext4Extent)
    (runs : List (Nat × Nat × Nat)) : List Ext4Extent :=
  runs.foldl (fun t r => insertLeafEntries ehMax t (Ext4Extent.new r.1 r.2.1 r.2.2)) tree

/-- `old_blocks` / `new_blocks` of `write_file`: `div_ceil` guarded by the
zero case. -/
def ceilBlocks (n : Nat) : Nat :=
  if n = 0 then 0 else (n + BLOCK_SIZE - 1) / BLOCK_SIZE

/-- The extent tree of the inode after the pre-extension
inserts of `write_file` (unchanged when allocation fails or no extension is needed). -/
def extendedTree (fs : WriteFs) (offset : Nat) (data : List Nat) :
    List Ext4Extent :=
  let old_blocks := ceilBlocks fs.size
  let new_blocks := ceilBlocks (offset + data.length)
  match allocLoop fs.freeBlocks old_blocks (new_blocks - old_blocks) with
  | none => fs.tree
  | some r => insertRuns fs.ehMax fs.tree (runMerge r.1)

/-- The read-modify-write applied to the cached page of one affected
logical block (`write_file` lines 1260-1275): splice
`data[write_start-offset .. write_end-offset)` into the page at the
intersection of the write span with the block span. -/
def rmwBlock (offset end_ : Nat) (data : List Nat) (lbn : Nat)
    (blk : List Nat) : List Nat :=
  let block_start := lbn * BLOCK_SIZE
  let block_end := block_start + BLOCK_SIZE
  let write_start := max offset block_start
  let write_end := min end_ block_end
  if write_end ≤ write_start then blk
  else
    let src_off := write_start - offset
    let dst_off := write_start - block_start
    let len := write_end - write_start
    blk.take dst_off ++ (data.drop src_off).take len ++ blk.drop (dst_off + len)

/-- The `for lbn in start_lbn..=end_lbn` read-modify-write loop of
`write_file`: resolve each block against the (already extended) tree and
splice the new bytes into its cached page.  An unresolved block is the
`Err(Corrupted)` of the code; `classicFallback` (see `resolveExtentPath`)
surfaces as `Unknown`. -/
def rmwLoop (tree : List Ext4Extent) (offset end_ : Nat) (data : List Nat) :
    (Nat → List Nat) → Nat → Nat → Except BlockDevError (Nat → List Nat)
  | cache, 0, _ => .ok cache
  | cache, n + 1, lbn =>
    match resolveExtentPath tree lbn with
    | .phys p =>
      rmwLoop tree offset end_ data
        (fun k => if k = p then rmwBlock offset end_ data lbn (cache p) else cache k)
        n (lbn + 1)
    | .hole => .error .Corrupted
    | .corrupted => .error .Corrupted
    | .classicFallback => .error .Unknown

/-- `write_file` (`file.rs` lines 1135-1279).  Empty data is a no-op; a
zero-sized file and an offset beyond the current size are rejected with
`Unsupported`; an end beyond the current size triggers the pre-extension
(allocation, run-merge, extent inserts, size and `i_blocks` update);
then every affected block is read-modify-written. -/
def writeFileModel (fs : WriteFs) (offset : Nat) (data : List Nat) :
    Except BlockDevError WriteFs :=
  if data.length = 0 then .ok fs
  else if fs.size = 0 then .error .Unsupported
  else if offset > fs.size then .error .Unsupported
  else
    let end_ := offset + data.length
    let old_blocks := ceilBlocks fs.size
    let new_blocks := ceilBlocks end_
    let step1 : Except BlockDevError WriteFs :=
      if end_ > fs.size then
        if ¬fs.hasExtents ∨ ¬fs.isExtent then .error .Unsupported
        else
          match allocLoop fs.freeBlocks old_blocks (new_blocks - old_blocks) with
          | none => .error .NoSpace
          | some r =>
            .ok { fs with
                  tree := insertRuns fs.ehMax fs.tree (runMerge r.1)
                  freeBlocks := r.2
                  size := end_
                  i_blocks := new_blocks * (BLOCK_SIZE / 512) }
      else .ok fs
    match step1 with
    | .error e => .error e
    | .ok fs1 =>
      let start_lbn := offset / BLOCK_SIZE
      let end_lbn := (end_ - 1) / BLOCK_SIZE
      match rmwLoop fs1.tree offset end_ data fs1.cache
          (end_lbn + 1 - start_lbn) start_lbn with
      | .error e => .error e
      | .ok cache1 => .ok { fs1 with cache := cache1 }

/-! ## Unmount and block allocation (`ext4.rs`)

`Ext4GroupDesc` lives in a missing module; its counter fields are 16-bit
low/high halves (`desc.bg_free_blocks_count_lo = (new_count & 0xFFFF) as
u16`, `... = (new_count >> 16) as u16` in `alloc_block`) combined by
`free_blocks_count()` into a `u32`, matching spec section 3.  The
superblock counters are `u32` fields `s_free_blocks_count_lo/hi` and
`s_free_inodes_count`.  The three page caches (missing modules) are
modelled from the spec, section 4.3: `flush_all` writes every dirty page
and clears the dirty bits; each cache is carried as its list of dirty
page keys. -/

/-- Group descriptor counter fields (16-bit halves). -/
structure Ext4GroupDesc where
  bg_free_blocks_count_lo : Nat
  bg_free_blocks_count_hi : Nat
  bg_free_inodes_count_lo : Nat
  bg_free_inodes_count_hi : Nat
deriving DecidableEq, Repr

/-- `Ext4GroupDesc::free_blocks_count()`: the 32-bit combined counter. -/
def Ext4GroupDesc.free_blocks_count (d : Ext4GroupDesc) : Nat :=
  d.bg_free_blocks_count_lo + d.bg_free_blocks_count_hi * 2 ^ 16

/-- `Ext4GroupDesc::free_inodes_count()`: the 32-bit combined counter. -/
def Ext4GroupDesc.free_inodes_count (d : Ext4GroupDesc) : Nat :=
  d.bg_free_inodes_count_lo + d.bg_free_inodes_count_hi * 2 ^ 16

/-- The superblock counter fields `umount` and `alloc_block` touch. -/
structure Ext4SuperblockCounts where
  s_free_blocks_count_lo : Nat
  s_free_blocks_count_hi : Nat
  s_free_inodes_count : Nat
deriving DecidableEq, Repr

/-- The combined 64-bit free-block total of the superblock. -/
def Ext4SuperblockCounts.freeBlocksTotal (sb : Ext4SuperblockCounts) : Nat :=
  sb.s_free_blocks_count_lo + sb.s_free_blocks_count_hi * 2 ^ 32

/-- Device-visible events emitted by `umount`, in order. -/
inductive UmountEvent where
  | bitmapFlush (key : Nat)
  | inodeFlush (key : Nat)
  | dataFlush (key : Nat)
  | superblockWrite (sb : Ext4SuperblockCounts)
  | gdtWrite
deriving DecidableEq, Repr

/-- The filesystem state `umount` reads and mutates: the three caches
(as their dirty-key lists), the live group descriptors and the superblock
counters. -/
structure MountedFs where
  mounted : Bool
  bitmapDirty : List Nat
  inodeDirty : List Nat
  dataDirty : List Nat
  group_descs : List Ext4GroupDesc
  sb : Ext4SuperblockCounts
deriving DecidableEq, Repr

/-- `Ext4FileSystem::umount` (`ext4.rs` lines 383-422): no-op when not
mounted; otherwise flush the bitmap cache, then the inode-table cache,
then the data-block cache, recompute the superblock free totals from the
group descriptors (64-bit accumulation split into the `u32` lo/hi fields,
inode total truncated to `u32`), write the superblock back and then the
full GDT. -/
def umountModel (fs : MountedFs) : MountedFs × List UmountEvent :=
  if fs.mounted = false then (fs, [])
  else
    let real_free_blocks :=
      (fs.group_descs.map Ext4GroupDesc.free_blocks_count).sum % 2 ^ 64
    let real_free_inodes :=
      (fs.group_descs.map Ext4GroupDesc.free_inodes_count).sum % 2 ^ 64
    let sb' : Ext4SuperblockCounts :=
      { s_free_blocks_count_lo := real_free_blocks &&& 0xFFFFFFFF
        s_free_blocks_count_hi := real_free_blocks / 2 ^ 32 % 2 ^ 32
        s_free_inodes_count := real_free_inodes % 2 ^ 32 }
    ({ fs with
        mounted := false
        bitmapDirty := []
        inodeDirty := []
        dataDirty := []
        sb := sb' },
      fs.bitmapDirty.map UmountEvent.bitmapFlush ++
        fs.inodeDirty.map UmountEvent.inodeFlush ++
        fs.dataDirty.map UmountEvent.dataFlush ++
        [UmountEvent.superblockWrite sb', UmountEvent.gdtWrite])

/-- The filesystem state `alloc_block` reads and mutates: group
descriptors, superblock counters, per-group block bitmaps (bit set ⇔
block used), the allocator scan hint and the layout constants that make
up the returned global block number. -/
structure AllocFs where
  group_descs : List Ext4GroupDesc
  sb : Ext4SuperblockCounts
  bitmaps : Nat → List Bool
  hint : Nat
  first_data_block : Nat
  blocks_per_group : Nat

/-- Modelled from the spec: `alloc_block_in_group` from the missing
`bmalloc.rs` — scan the block bitmap of the group from the hint upward for the
first clear bit (spec section 4.4). -/
def findClearFrom (bm : List Bool) (hint : Nat) : Option Nat :=
  match (bm.drop hint).findIdx? (fun b => b = false) with
  | none => none
  | some i => some (i + hint)

/-- `Ext4FileSystem::alloc_block` (`ext4.rs` lines 518-565): reject a
missing group with `Corrupted` and an exhausted group counter with
`NoSpace`; otherwise allocate the first free bit (spec-modelled bitmap
scan), write the decremented group counter back into its 16-bit halves
(`saturating_sub(1)`), and decrement only the low `u32` half of the
superblock total, again with `saturating_sub`.  Returns the updated state
and the global block number. -/
def allocBlockModel (fs : AllocFs) (group_idx : Nat) :
    AllocFs × Except BlockDevError Nat :=
  match fs.group_descs[group_idx]? with
  | none => (fs, .error .Corrupted)
  | some desc =>
    if desc.free_blocks_count = 0 then (fs, .error .NoSpace)
    else
      match findClearFrom (fs.bitmaps group_idx) fs.hint with
      | none => (fs, .error .NoSpace)
      | some bit =>
        let new_count := desc.free_blocks_count - 1
        let desc' := { desc with
          bg_free_blocks_count_lo := new_count &&& 0xFFFF
          bg_free_blocks_count_hi := new_count / 2 ^ 16 % 2 ^ 16 }
        ({ fs with
            group_descs := fs.group_descs.set group_idx desc'
            bitmaps := fun g =>
              if g = group_idx then (fs.bitmaps group_idx).set bit true
              else fs.bitmaps g
            sb := { fs.sb with
              s_free_blocks_count_lo := fs.sb.s_free_blocks_count_lo - 1 } },
          .ok (fs.first_data_block + group_idx * fs.blocks_per_group + bit))

/-! ## Block-device wrapper and journaled flush (`blockdev.rs`)

`BlockDev` is the single-slot block cache of `blockdev.rs` lines 428-591;
`Jbd2Dev::flush` is lines 413-418.  The underlying device is carried as a
block store plus the ordered list of write calls and the count of flush
calls it has received, so frame effects are directly observable. -/

/-- State of `BlockDev` plus its observable underlying device. -/
structure BlockDevSt where
  store : Nat → List Nat
  devWrites : List (Nat × List Nat)
  devFlushes : Nat
  buffer : List Nat
  is_dirty : Bool
  cached_block : Option Nat

/-- `BlockDev::write_block`: write the slot buffer to the given block,
remember it as cached and clear the dirty bit. -/
def bdWriteBlock (st : BlockDevSt) (block_id : Nat) : BlockDevSt :=
  { st with
      store := devWrite st.store block_id st.buffer
      devWrites := st.devWrites ++ [(block_id, st.buffer)]
      cached_block := some block_id
      is_dirty := false }

/-- `BlockDev::flush`: write the dirty slot back (if any), then flush the
underlying device. -/
def bdFlush (st : BlockDevSt) : BlockDevSt :=
  let st1 :=
    if st.is_dirty = true then
      match st.cached_block with
      | some block_id => bdWriteBlock st block_id
      | none => st
    else st
  { st1 with devFlushes := st1.devFlushes + 1 }

/-- `BlockDev::read_block`: flush first when the slot is dirty for another
id, then load unless already cached. -/
def bdReadBlock (st : BlockDevSt) (block_id : Nat) : BlockDevSt :=
  let st1 :=
    if st.is_dirty = true ∧ st.cached_block ≠ some block_id then bdFlush st
    else st
  if st1.cached_block = some block_id then st1
  else
    { st1 with
        buffer := st1.store block_id
        cached_block := some block_id
        is_dirty := false }

/-- A mutation through `BlockDev::buffer_mut`: replace the slot contents
and mark the slot dirty. -/
def bdModifyBuffer (st : BlockDevSt) (newBuf : List Nat) : BlockDevSt :=
  { st with buffer := newBuf, is_dirty := true }

/-- `Jbd2Dev`: the journaling proxy; only the flag and the inner
single-slot cache matter to `flush`. -/
structure Jbd2DevSt where
  journal_use : Bool
  inner : BlockDevSt

/-- `Jbd2Dev::flush` (`blockdev.rs` lines 413-418): pass through to the
inner `BlockDev::flush` only when journaling is disabled; with journaling
enabled, return `Ok(())` having done nothing. -/
def jbd2Flush (d : Jbd2DevSt) : Jbd2DevSt :=
  if d.journal_use = false then { d with inner := bdFlush d.inner } else d

/-! ## Event classifiers and concrete scenario states -/

/-- Is an umount event a data-block cache write? -/
def UmountEvent.isData : UmountEvent → Bool
  | .dataFlush _ => true
  | _ => false

/-- Is an umount event an inode-table cache write? -/
def UmountEvent.isInode : UmountEvent → Bool
  | .inodeFlush _ => true
  | _ => false

/-- Is an umount event a bitmap cache write? -/
def UmountEvent.isBitmap : UmountEvent → Bool
  | .bitmapFlush _ => true
  | _ => false

/-- Does the extent-branch resolution yield a physical block? -/
def ResolveOutcome.isPhys : ResolveOutcome → Bool
  | .phys _ => true
  | _ => false

/-- C2 scenario: logical block 0 of the file is a hole, logical block 1 is
mapped to physical block 5. -/
def c2Resolve : Nat → Option Nat := fun lbn => if lbn = 0 then none else some 5

/-- C2 scenario: every cached data page is 4096 bytes of `1`. -/
def c2Blocks : Nat → List Nat := fun _ => List.replicate 4096 1

/-- C3 counterexample state: an existing 10-byte extent file with free
blocks available. -/
def c3Fs : WriteFs :=
  { size := 10, isExtent := true, hasExtents := true
    tree := [Ext4Extent.new 0 50 1], ehMax := 4
    freeBlocks := [60, 61, 62], i_blocks := 8
    cache := fun _ => List.replicate 4096 0 }

/-- C3 witness state: a 10-byte extent file mapped to physical block 50,
with blocks 60 and 61 free next. -/
def w3Fs : WriteFs :=
  { size := 8190, isExtent := true, hasExtents := true
    tree := [Ext4Extent.new 0 50 2], ehMax := 4
    freeBlocks := [60], i_blocks := 16
    cache := fun _ => List.replicate 4096 0 }

/-- C6 scenario: one dirty page in each cache, two group descriptors. -/
def c6Fs : MountedFs :=
  { mounted := true, bitmapDirty := [11], inodeDirty := [22], dataDirty := [33]
    group_descs := [⟨100, 0, 7, 0⟩, ⟨200, 0, 9, 0⟩]
    sb := ⟨1, 2, 3⟩ }

/-- C8 scenario, empty queue. -/
def w8SysE : JBD2DEVSYSTEM :=
  { start_block := 100, head := 0, max_len := 10, sequence := 5
    jbd2_super_block := ⟨1, 0, 5, 10⟩, commit_queue := [] }

/-- C8 scenario, two queued updates. -/
def w8Sys : JBD2DEVSYSTEM :=
  { start_block := 100, head := 0, max_len := 10, sequence := 5
    jbd2_super_block := ⟨1, 0, 5, 10⟩
    commit_queue := [⟨7, [1, 2, 3, 4]⟩, ⟨9, [5, 6, 7, 8]⟩] }

/-- A trivial device for the C8 witness. -/
def w8Dev : Device := fun _ => []

/-- C9 counterexample state: two groups whose free-block counts sum to
exactly `2^32`, so the superblock total is consistent with
`s_free_blocks_count_lo = 0`, `s_free_blocks_count_hi = 1`. -/
def c9Fs : AllocFs :=
  { group_descs := [⟨5, 0, 3, 0⟩, ⟨65531, 65535, 3, 0⟩]
    sb := ⟨0, 1, 6⟩
    bitmaps := fun _ => [true, false, true]
    hint := 0
    first_data_block := 1
    blocks_per_group := 32768 }

/-- C9 witness state: the ordinary regime with a nonzero low counter. -/
def w9Fs : AllocFs :=
  { group_descs := [⟨5, 0, 3, 0⟩]
    sb := ⟨40, 0, 6⟩
    bitmaps := fun _ => [true, false, true]
    hint := 0
    first_data_block := 1
    blocks_per_group := 32768 }

/-- C10 witness state: a journaled device whose slot holds block 3 dirty. -/
def w10Dev : Jbd2DevSt :=
  { journal_use := true
    inner :=
      { store := fun _ => [], devWrites := [], devFlushes := 0
        buffer := [9, 9], is_dirty := true, cached_block := some 3 } }

/-- C10 witness state with journaling disabled. -/
def w10DevOff : Jbd2DevSt :=
  { journal_use := false
    inner :=
      { store := fun _ => [], devWrites := [], devFlushes := 0
        buffer := [9, 9], is_dirty := true, cached_block := some 3 } }

/-! ## Helper lemmas -/

/-- The read loop concatenates the mapped pages when every block in the
window resolves. -/
theorem readLoop_mapped (resolve : Nat → Option Nat) (blocks : Nat → List Nat)
    (f : Nat → Nat) :
    ∀ (n start : Nat),
      (∀ i, start ≤ i → i < start + n → resolve i = some (f i)) →
      readLoop resolve blocks n start =
        ((List.range' start n).map fun i => blocks (f i)).flatten := by
  intro n
  induction n with
  | zero => intro start _; simp [readLoop]
  | succ k ih =>
    intro start h
    rw [readLoop, h start (le_refl _) (by omega), List.range'_succ]
    simp only [List.map_cons, List.flatten_cons]
    rw [ih (start + 1) (fun i h1 h2 => h i (by omega) (by omega))]

/-- The log-block write loop logs exactly the given pages, in order. -/
theorem writeLogBlocks_map_snd (l : List (List Nat)) :
    ∀ (s : JBD2DEVSYSTEM) (dv : Device),
      (writeLogBlocks s dv l).2.2.map Prod.snd = l := by
  induction l with
  | nil => intro s dv; rfl
  | cons d rest ih =>
    intro s dv
    simp only [writeLogBlocks, List.map_cons]
    rw [ih]

/-- The log-block write loop does not touch the commit queue. -/
theorem writeLogBlocks_commit_queue (l : List (List Nat)) :
    ∀ (s : JBD2DEVSYSTEM) (dv : Device),
      (writeLogBlocks s dv l).1.commit_queue = s.commit_queue := by
  induction l with
  | nil => intro s dv; rfl
  | cons d rest ih =>
    intro s dv
    simp only [writeLogBlocks]
    rw [ih]
    exact rfl

/-- The log-block write loop does not touch the sequence number. -/
theorem writeLogBlocks_sequence (l : List (List Nat)) :
    ∀ (s : JBD2DEVSYSTEM) (dv : Device),
      (writeLogBlocks s dv l).1.sequence = s.sequence := by
  induction l with
  | nil => intro s dv; rfl
  | cons d rest ih =>
    intro s dv
    simp only [writeLogBlocks]
    rw [ih]
    exact rfl

/-- One descriptor tag per queued update. -/
theorem commitTags_length (q : List Jbd2Update) :
    (commitTags q).length = q.length := by
  simp [commitTags]

/-- The tag at index `i` of the descriptor. -/
theorem commitTags_getElem (q : List Jbd2Update) (i : Nat) (h : i < q.length)
    (h2 : i < (commitTags q).length) :
    (commitTags q)[i] =
      { t_blocknr := q[i].blocknr % 2 ^ 32
        t_checksum := 0
        t_flags :=
          (if escapeCheck q[i].data then JOURANL_ESCAPE else 0) +
          (if i = q.length - 1 then JBD2_FLAG_LAST_TAG else 0) } := by
  simp [commitTags]

/-- The tags carry the queued target block numbers (as u32), in order. -/
theorem commitTags_map_blocknr (q : List Jbd2Update) :
    (commitTags q).map JournalBlockTagS.t_blocknr =
      q.map fun u => u.blocknr % 2 ^ 32 := by
  apply List.ext_getElem
  · simp [commitTags_length]
  · intro i h1 h2
    have hi : i < q.length := by simpa [commitTags_length] using h1
    rw [List.getElem_map, List.getElem_map,
      commitTags_getElem q i hi (by simpa [commitTags_length] using hi)]

/-- LAST_TAG is set on the final descriptor tag and on no other. -/
theorem commitTags_last_flag (q : List Jbd2Update) (hne : q ≠ []) :
    ∃ pre lastTag, commitTags q = pre ++ [lastTag] ∧
      (∀ t ∈ pre, t.t_flags &&& JBD2_FLAG_LAST_TAG = 0) ∧
      lastTag.t_flags &&& JBD2_FLAG_LAST_TAG ≠ 0 := by
  have hq : 0 < q.length := List.length_pos.mpr hne
  have hcne : commitTags q ≠ [] := by
    intro hh
    rw [← List.length_eq_zero, commitTags_length] at hh
    omega
  refine ⟨(commitTags q).dropLast, (commitTags q).getLast hcne,
    (List.dropLast_append_getLast hcne).symm, ?_, ?_⟩
  · intro t ht
    obtain ⟨i, hilt, hieq⟩ := List.mem_iff_getElem.mp ht
    have hlen : (commitTags q).dropLast.length = q.length - 1 := by
      simp [List.length_dropLast, commitTags_length]
    have hi2 : i < q.length - 1 := by rw [hlen] at hilt; exact hilt
    have hi3 : i < q.length := by omega
    rw [List.getElem_dropLast,
      commitTags_getElem q i hi3 (by simpa [commitTags_length] using hi3)]
      at hieq
    rw [← hieq]
    have hne2 : ¬ (i = q.length - 1) := by omega
    rw [if_neg hne2]
    split
    · exact (by decide : (JOURANL_ESCAPE + 0) &&& JBD2_FLAG_LAST_TAG = 0)
    · exact (by decide : (0 + 0) &&& JBD2_FLAG_LAST_TAG = 0)
  · have hlast := List.getLast_eq_getElem (commitTags q) hcne
    have hl2 : (commitTags q).length - 1 = q.length - 1 := by
      rw [commitTags_length]
    rw [hlast]
    have hi3 : q.length - 1 < q.length := by omega
    have hget := commitTags_getElem q (q.length - 1) hi3
      (by simpa [commitTags_length] using hi3)
    simp only [hl2]
    rw [hget, if_pos rfl]
    split
    · exact (by decide :
        ¬ ((JOURANL_ESCAPE + JBD2_FLAG_LAST_TAG) &&& JBD2_FLAG_LAST_TAG = 0))
    · exact (by decide : ¬ ((0 + JBD2_FLAG_LAST_TAG) &&& JBD2_FLAG_LAST_TAG = 0))

/-- The pre-extension allocation loop succeeds exactly on the next
`n` allocator blocks when enough are available. -/
theorem allocLoop_some (n : Nat) :
    ∀ (free : List Nat) (lbn : Nat), n ≤ free.length →
      allocLoop free lbn n =
        some ((List.range' lbn n).zip (free.take n), free.drop n) := by
  induction n with
  | zero => intro free lbn _; simp [allocLoop]
  | succ k ih =>
    intro free lbn h
    match free with
    | [] => simp at h
    | p :: rest =>
      rw [allocLoop]
      rw [ih rest (lbn + 1) (by simpa using h)]
      simp [List.range'_succ]

/-- The read-modify-write loop succeeds when every affected logical block
resolves to a physical block. -/
theorem rmwLoop_ok (tree : List Ext4Extent) (offset end_ : Nat)
    (data : List Nat) :
    ∀ (n lbn : Nat) (cache : Nat → List Nat),
      (∀ k, k < n → (resolveExtentPath tree (lbn + k)).isPhys = true) →
      ∃ cache2, rmwLoop tree offset end_ data cache n lbn = .ok cache2 := by
  intro n
  induction n with
  | zero => intro lbn cache _; exact ⟨cache, rfl⟩
  | succ m ih =>
    intro lbn cache h
    have h0 : (resolveExtentPath tree lbn).isPhys = true := by
      simpa using h 0 (by omega)
    rcases heq : resolveExtentPath tree lbn with p | _ | _ | _
    · rw [rmwLoop, heq]
      exact ih (lbn + 1)
        (fun k => if k = p then rmwBlock offset end_ data lbn (cache p)
          else cache k)
        (fun k hk => by
          have := h (k + 1) (by omega)
          rw [Nat.add_comm k 1, ← Nat.add_assoc] at this
          exact this)
    · rw [heq] at h0
      exact absurd h0 (by decide)
    · rw [heq] at h0
      exact absurd h0 (by decide)
    · rw [heq] at h0
      exact absurd h0 (by decide)

/-! ## Claim theorems -/

set_option maxRecDepth 4000 in
/-- Claim C1 (code bug): the JBD2 escape handling does not round-trip.
`commit_transaction` detects a magic collision by reading the first four
bytes little-endian, zeroes them in the logged copy and sets ESCAPE on the
tag; but `replay` restores `JBD2_MAGIC.to_be_bytes()`, the big-endian
order.  For a queued metadata block starting with `98 39 3B C0` (the
little-endian magic), the committed-then-replayed block at target physical
block 7 starts with `C0 3B 39 98` and so differs from the original. -/
theorem jbd2_escape_replay_mangles_magic :
    escapeCheck c1Orig = true ∧
    (commitTags c1Sys.commit_queue).map JournalBlockTagS.t_flags =
      [JOURANL_ESCAPE + JBD2_FLAG_LAST_TAG] ∧
    (commitTransaction c1Sys c1Dev).2.2.1.map Prod.snd =
      [padBlock (headerToBytes ⟨JBD2_MAGIC, 1, 5⟩ ++
          (commitTags c1Sys.commit_queue).flatMap tagToBytes),
        0 :: 0 :: 0 :: 0 :: c1Orig.drop 4,
        padBlock (headerToBytes ⟨JBD2_MAGIC, 2, 5⟩)] ∧
    (replay 3 (commitTransaction c1Sys c1Dev).1
        (commitTransaction c1Sys c1Dev).2.1).2 7 =
      be32Bytes JBD2_MAGIC ++ c1Orig.drop 4 ∧
    c1Orig = le32Bytes JBD2_MAGIC ++ c1Orig.drop 4 ∧
    be32Bytes JBD2_MAGIC ≠ le32Bytes JBD2_MAGIC ∧
    (replay 3 (commitTransaction c1Sys c1Dev).1
        (commitTransaction c1Sys c1Dev).2.1).2 7 ≠ c1Orig := by
  refine ⟨rfl, rfl, rfl, rfl, rfl, by decide,
    fun h => absurd (congrArg (List.take 4) h) (by decide)⟩

/-- Claim C2 (counterexample): a hole does not read as zeros — the walk of
`read_file` stops at the first unmapped logical block, so a 8192-byte file
whose block 0 is a hole and whose block 1 is mapped reads back as the
empty byte string, not as 8192 bytes. -/
theorem read_file_hole_truncates :
    readFileModel 8192 c2Resolve c2Blocks = [] ∧
    c2Resolve 0 = none ∧ c2Resolve 1 = some 5 ∧
    (readFileModel 8192 c2Resolve c2Blocks).length ≠ 8192 := by
  refine ⟨rfl, rfl, rfl, by decide⟩

/-- Claim C2 (amended): `read_file` walks logical blocks
`0..⌈size/BLOCK_SIZE⌉` and stops at the first unmapped block; when every
block in that range is mapped, the result is the concatenation of the
resolved pages in logical order truncated to `size`, hence exactly `size`
bytes. -/
theorem read_file_mapped_exact (size : Nat) (resolve : Nat → Option Nat)
    (blocks : Nat → List Nat) (f : Nat → Nat)
    (hres : ∀ lbn, lbn < (size + BLOCK_SIZE - 1) / BLOCK_SIZE →
      resolve lbn = some (f lbn))
    (hlen : ∀ p, (blocks p).length = BLOCK_SIZE) :
    readFileModel size resolve blocks =
      (((List.range ((size + BLOCK_SIZE - 1) / BLOCK_SIZE)).map
        fun i => blocks (f i)).flatten).take size ∧
    (readFileModel size resolve blocks).length = size := by
  by_cases hz : size = 0
  · subst hz
    simp [readFileModel]
  · have hloop := readLoop_mapped resolve blocks f
      ((size + BLOCK_SIZE - 1) / BLOCK_SIZE) 0
      (fun i _ h2 => hres i (by omega))
    have hmain : readFileModel size resolve blocks =
        (((List.range ((size + BLOCK_SIZE - 1) / BLOCK_SIZE)).map
          fun i => blocks (f i)).flatten).take size := by
      rw [readFileModel, if_neg hz, hloop, List.range_eq_range']
    refine ⟨hmain, ?_⟩
    rw [hmain, List.length_take, List.length_flatten]
    have hlen2 : (List.map List.length
        ((List.range ((size + BLOCK_SIZE - 1) / BLOCK_SIZE)).map
          fun i => blocks (f i))).sum =
        ((size + BLOCK_SIZE - 1) / BLOCK_SIZE) * BLOCK_SIZE := by
      rw [List.map_map]
      have heq : (List.length ∘ fun i => blocks (f i)) =
          fun _ => BLOCK_SIZE := by
        funext i
        exact hlen (f i)
      rw [heq]
      rw [List.map_const', List.length_range, List.sum_replicate, smul_eq_mul]
    rw [hlen2]
    have hdm := Nat.div_add_mod (size + BLOCK_SIZE - 1) BLOCK_SIZE
    have hmlt : (size + BLOCK_SIZE - 1) % BLOCK_SIZE < BLOCK_SIZE :=
      Nat.mod_lt _ (by norm_num [BLOCK_SIZE])
    simp only [BLOCK_SIZE] at hdm hmlt ⊢
    omega

/-- Witness for the amended claim C2, at a 5000-byte fully mapped file. -/
theorem read_file_mapped_exact_witness :
    (readFileModel 5000 (fun _ => some 3)
      (fun _ => List.replicate 4096 2)).length = 5000 :=
  (read_file_mapped_exact 5000 (fun _ => some 3)
    (fun _ => List.replicate 4096 2) (fun _ => 3) (fun _ _ => rfl)
    (fun _ => by rw [List.length_replicate]; rfl)).2

/-- Claim C3 (counterexample): `write_file` rejects an offset beyond the
current size (and any write to a zero-sized file) with `Unsupported`, even
though offset and end lie past the size and the claim promises the write
succeeds. -/
theorem write_file_beyond_eof_rejected :
    writeFileModel c3Fs 11 [0xAB] = .error BlockDevError.Unsupported ∧
    writeFileModel { c3Fs with size := 0 } 0 [0xAB] =
      .error BlockDevError.Unsupported ∧
    c3Fs.size < 11 + 1 ∧ (0 : Nat) < 1 := by
  refine ⟨rfl, rfl, by decide, by decide⟩

/-- Claim C3 (amended): for a non-empty extent file, an offset at most the
current size, and data reaching past the current size, `write_file`
allocates one block per new logical block, run-merges and inserts the new
extents, sets the size to `offset + data.length` and `i_blocks` to
`new_blocks · 8`, and read-modify-writes every affected block
successfully.  The hypotheses delimit the embedded regime: enough
allocator blocks, and the extended depth-0 tree resolving every affected
logical block. -/
theorem write_file_extends (fs : WriteFs) (offset : Nat) (data : List Nat)
    (hd : data ≠ []) (h0 : 0 < fs.size) (hoff : offset ≤ fs.size)
    (hend : fs.size < offset + data.length)
    (hext : fs.hasExtents = true) (hie : fs.isExtent = true)
    (halloc : ceilBlocks (offset + data.length) - ceilBlocks fs.size ≤
      fs.freeBlocks.length)
    (hcov : ∀ k,
      k < (offset + data.length - 1) / BLOCK_SIZE + 1 - offset / BLOCK_SIZE →
      (resolveExtentPath (extendedTree fs offset data)
        (offset / BLOCK_SIZE + k)).isPhys = true) :
    ∃ fsr : WriteFs,
      writeFileModel fs offset data = .ok fsr ∧
      fsr.size = offset + data.length ∧
      fsr.i_blocks = ceilBlocks (offset + data.length) * (BLOCK_SIZE / 512) ∧
      fsr.tree = extendedTree fs offset data ∧
      fsr.freeBlocks = fs.freeBlocks.drop
        (ceilBlocks (offset + data.length) - ceilBlocks fs.size) ∧
      extendedTree fs offset data =
        insertRuns fs.ehMax fs.tree (runMerge
          ((List.range' (ceilBlocks fs.size)
            (ceilBlocks (offset + data.length) - ceilBlocks fs.size)).zip
            (fs.freeBlocks.take
              (ceilBlocks (offset + data.length) - ceilBlocks fs.size)))) := by
  have hdl : ¬ (data.length = 0) := by
    rw [List.length_eq_zero]
    exact hd
  have hsz : ¬ (fs.size = 0) := by omega
  have hgt : ¬ (offset > fs.size) := by omega
  have hext2 : ¬ (¬ fs.hasExtents = true ∨ ¬ fs.isExtent = true) := by
    rw [hext, hie]
    simp
  have halloc2 := allocLoop_some
    (ceilBlocks (offset + data.length) - ceilBlocks fs.size)
    fs.freeBlocks (ceilBlocks fs.size) halloc
  have htree : extendedTree fs offset data =
      insertRuns fs.ehMax fs.tree (runMerge
        ((List.range' (ceilBlocks fs.size)
          (ceilBlocks (offset + data.length) - ceilBlocks fs.size)).zip
          (fs.freeBlocks.take
            (ceilBlocks (offset + data.length) - ceilBlocks fs.size)))) := by
    rw [extendedTree, halloc2]
  obtain ⟨cache2, hc2⟩ := rmwLoop_ok (extendedTree fs offset data) offset
    (offset + data.length) data
    ((offset + data.length - 1) / BLOCK_SIZE + 1 - offset / BLOCK_SIZE)
    (offset / BLOCK_SIZE) fs.cache hcov
  refine ⟨{ fs with
      tree := extendedTree fs offset data
      freeBlocks := fs.freeBlocks.drop
        (ceilBlocks (offset + data.length) - ceilBlocks fs.size)
      size := offset + data.length
      i_blocks := ceilBlocks (offset + data.length) * (BLOCK_SIZE / 512)
      cache := cache2 }, ?_, rfl, rfl, rfl, rfl, htree⟩
  simp only [writeFileModel]
  rw [if_neg hdl, if_neg hsz, if_neg hgt, if_pos hend, if_neg hext2, halloc2]
  dsimp only []
  rw [← htree]
  rw [hc2]

/-- Witness for the amended claim C3: a 8190-byte file extended to 8200
bytes, allocating block 60 for the new logical block 2. -/
theorem write_file_extends_witness :
    ∃ fsr : WriteFs,
      writeFileModel w3Fs 8190 [1, 2, 3, 4, 5, 6, 7, 8, 9, 10] = .ok fsr ∧
      fsr.size = 8200 ∧ fsr.i_blocks = 24 ∧
      fsr.tree = [Ext4Extent.new 0 50 2, Ext4Extent.new 2 60 1] := by
  obtain ⟨fsr, h1, h2, h3, h4, h5, h6⟩ :=
    write_file_extends w3Fs 8190 [1, 2, 3, 4, 5, 6, 7, 8, 9, 10]
      (by decide) (by decide) (by decide) (by decide) rfl rfl
      (by decide) (by decide)
  refine ⟨fsr, h1, by rw [h2]; decide, by rw [h3]; decide, ?_⟩
  rw [h4]
  decide

/-- Claim C4 (code bug): the leaf merge of `insert_recursive` saturates
wrongly at `MAX_LEN = 32768`: an in-range merge works (first conjunct),
but a merge to exactly 32768 stores `32768 as u16 & 0x7FFF = 0` as the
length, and the saturating branch likewise stores length 0 in the
preceding extent instead of 32768 (the tail extent itself is correct). -/
theorem extent_merge_saturation_bug :
    insertLeafEntries 4 [⟨0, 100, 0, 1000⟩] ⟨100, 50, 0, 1100⟩ =
      [⟨0, 150, 0, 1000⟩] ∧
    insertLeafEntries 4 [⟨0, 16384, 0, 1000⟩] ⟨16384, 16384, 0, 17384⟩ =
      [⟨0, 0, 0, 1000⟩] ∧
    insertLeafEntries 4 [⟨0, 20000, 0, 1000⟩] ⟨20000, 20000, 0, 21000⟩ =
      [⟨0, 0, 0, 1000⟩, ⟨32768, 7232, 0, 33768⟩] ∧
    (16384 + 16384 = MAX_LEN ∧ (0 : Nat) ≠ MAX_LEN) := by
  decide

/-- Claim C5 (code bug): `find_in_node` uses the unmasked `ee_len`, so an
uninit extent (high bit set) shadows the later extent that genuinely
covers the logical block, and `resolve_inode_block` then reports a hole —
although the leaf holds an extent `e2` with
`e2.ee_block ≤ 10 < e2.ee_block + (e2.ee_len &&& 0x7FFF)` whose physical
resolution would be block 200. -/
theorem extent_lookup_unmasked_len_bug :
    findInLeaf [⟨0, 0x8004, 0, 100⟩, ⟨10, 4, 0, 200⟩] 10 =
      some ⟨0, 0x8004, 0, 100⟩ ∧
    resolveExtentPath [⟨0, 0x8004, 0, 100⟩, ⟨10, 4, 0, 200⟩] 10 =
      ResolveOutcome.hole ∧
    ((10 : Nat) ≤ 10 ∧ (10 : Nat) < 10 + (4 &&& 0x7FFF)) ∧
    (0 : Nat) * 2 ^ 32 + 200 + (10 - 10) = 200 := by
  decide

/-- Claim C6 (counterexample): `umount` flushes the bitmap cache first,
then the inode table, then the data blocks — the reverse of the claimed
order.  With one dirty page per cache the trace places the inode-table
write (index 1) before the data-block write (index 2), refuting that
every dirty data page is written before any dirty inode-table page. -/
theorem umount_flush_order_counterexample :
    (umountModel c6Fs).2 =
      [UmountEvent.bitmapFlush 11, UmountEvent.inodeFlush 22,
        UmountEvent.dataFlush 33,
        UmountEvent.superblockWrite (umountModel c6Fs).1.sb,
        UmountEvent.gdtWrite] ∧
    ¬ (∀ i j : Nat,
        ((umountModel c6Fs).2.getD i UmountEvent.gdtWrite).isData = true →
        ((umountModel c6Fs).2.getD j UmountEvent.gdtWrite).isInode = true →
        i < j) := by
  refine ⟨rfl, fun h => absurd (h 2 1 rfl rfl) (by decide)⟩

/-- Claim C6 (amended): on every umount of a mounted filesystem the caches
are flushed in the fixed order bitmaps, then inode table, then data
blocks, followed by the superblock write and the GDT write. -/
theorem umount_flush_order (fs : MountedFs) (hm : fs.mounted = true) :
    (umountModel fs).2 =
      fs.bitmapDirty.map UmountEvent.bitmapFlush ++
      fs.inodeDirty.map UmountEvent.inodeFlush ++
      fs.dataDirty.map UmountEvent.dataFlush ++
      [UmountEvent.superblockWrite (umountModel fs).1.sb,
        UmountEvent.gdtWrite] := by
  simp [umountModel, hm]

/-- Witness for the amended claim C6 at a concrete mounted state. -/
theorem umount_flush_order_witness :
    (umountModel c6Fs).2 =
      c6Fs.bitmapDirty.map UmountEvent.bitmapFlush ++
      c6Fs.inodeDirty.map UmountEvent.inodeFlush ++
      c6Fs.dataDirty.map UmountEvent.dataFlush ++
      [UmountEvent.superblockWrite (umountModel c6Fs).1.sb,
        UmountEvent.gdtWrite] :=
  umount_flush_order c6Fs rfl

/-- Claim C7: after a successful umount of a mounted filesystem the
superblock free-block total equals the sum of the group-descriptor
free-block counts, the free-inode count equals the sum of the descriptor
free-inode counts, and the written superblock carries these totals (the
sums fit the on-disk `u64` and `u32` fields, as the format guarantees). -/
theorem umount_free_totals (fs : MountedFs) (hm : fs.mounted = true)
    (hb : (fs.group_descs.map Ext4GroupDesc.free_blocks_count).sum < 2 ^ 64)
    (hi : (fs.group_descs.map Ext4GroupDesc.free_inodes_count).sum < 2 ^ 32) :
    (umountModel fs).1.sb.freeBlocksTotal =
      (fs.group_descs.map Ext4GroupDesc.free_blocks_count).sum ∧
    (umountModel fs).1.sb.s_free_inodes_count =
      (fs.group_descs.map Ext4GroupDesc.free_inodes_count).sum ∧
    UmountEvent.superblockWrite (umountModel fs).1.sb ∈ (umountModel fs).2 := by
  have hmem : UmountEvent.superblockWrite (umountModel fs).1.sb ∈
      (umountModel fs).2 := by
    simp [umountModel, hm]
  refine ⟨?_, ?_, hmem⟩
  · simp only [umountModel, hm, Bool.true_eq_false, if_false,
      Ext4SuperblockCounts.freeBlocksTotal]
    set S := (fs.group_descs.map Ext4GroupDesc.free_blocks_count).sum with hS
    rw [Nat.mod_eq_of_lt hb]
    have h1 : S &&& 0xFFFFFFFF = S % 2 ^ 32 := by
      have h3 := Nat.and_pow_two_sub_one_eq_mod S 32
      norm_num at h3
      exact h3
    have h2 : S / 2 ^ 32 < 2 ^ 32 := by
      apply Nat.div_lt_of_lt_mul
      calc S < 2 ^ 64 := hb
        _ = 2 ^ 32 * 2 ^ 32 := by norm_num
    rw [h1, Nat.mod_eq_of_lt h2, Nat.mul_comm, Nat.mod_add_div]
  · simp only [umountModel, hm, Bool.true_eq_false, if_false]
    rw [Nat.mod_eq_of_lt (lt_trans hi (by norm_num)), Nat.mod_eq_of_lt hi]

/-- Witness for claim C7 at a concrete two-group state. -/
theorem umount_free_totals_witness :
    (umountModel c6Fs).1.sb.freeBlocksTotal = 300 ∧
    (umountModel c6Fs).1.sb.s_free_inodes_count = 16 := by
  have h := umount_free_totals c6Fs rfl (by decide) (by decide)
  exact ⟨h.1, h.2.1⟩

/-- Claim C8: the commit protocol of `commit_transaction`.  An empty queue
writes nothing and leaves the sequence unchanged.  A non-empty queue of
`n` updates (fitting one descriptor block, as the buffered maximum of 64
guarantees) writes a descriptor block whose tags list the queued target
blocks in order with LAST_TAG on the final tag only, then one escaped log
block per update in queue order, then one commit block with the same
sequence number as the descriptor; afterwards the queue is empty and the
sequence has increased by exactly one. -/
theorem commit_transaction_protocol (s : JBD2DEVSYSTEM) (dev : Device) :
    (s.commit_queue = [] → commitTransaction s dev = (s, dev, [], false)) ∧
    (s.commit_queue ≠ [] →
      12 + 8 * s.commit_queue.length ≤ BLOCK_SIZE →
      s.sequence + 1 < 2 ^ 32 →
      (commitTransaction s dev).2.2.1.map Prod.snd =
        padBlock (headerToBytes ⟨JBD2_MAGIC, 1, s.sequence⟩ ++
          (commitTags s.commit_queue).flatMap tagToBytes) ::
        ((s.commit_queue.map fun u => escapeData u.data) ++
          [padBlock (headerToBytes ⟨JBD2_MAGIC, 2, s.sequence⟩)]) ∧
      (commitTags s.commit_queue).map JournalBlockTagS.t_blocknr =
        (s.commit_queue.map fun u => u.blocknr % 2 ^ 32) ∧
      (∃ pre lastTag, commitTags s.commit_queue = pre ++ [lastTag] ∧
        (∀ t ∈ pre, t.t_flags &&& JBD2_FLAG_LAST_TAG = 0) ∧
        lastTag.t_flags &&& JBD2_FLAG_LAST_TAG ≠ 0) ∧
      (commitTransaction s dev).1.commit_queue = [] ∧
      (commitTransaction s dev).1.sequence = s.sequence + 1 ∧
      (commitTransaction s dev).2.2.2 = true) := by
  constructor
  · intro h
    simp [commitTransaction, h]
  · intro hne hroom hseq
    have hlen0 : ¬ (s.commit_queue.length = 0) := by
      rw [List.length_eq_zero]
      exact hne
    refine ⟨?_, commitTags_map_blocknr _, commitTags_last_flag _ hne,
      ?_, ?_, ?_⟩
    · simp only [commitTransaction, if_neg hlen0, List.map_cons,
        List.map_append]
      rw [writeLogBlocks_map_snd]
      rfl
    · simp only [commitTransaction, if_neg hlen0, setNextLogBlock]
    · simp only [commitTransaction, if_neg hlen0, setNextLogBlock]
      rw [writeLogBlocks_sequence]
      exact Nat.mod_eq_of_lt hseq
    · simp only [commitTransaction, if_neg hlen0]

/-- Witness for claim C8: the empty queue is a no-op, and a two-update
queue commits, clears and bumps the sequence from 5 to 6. -/
theorem commit_transaction_protocol_witness :
    commitTransaction w8SysE w8Dev = (w8SysE, w8Dev, [], false) ∧
    (commitTransaction w8Sys w8Dev).1.sequence = 6 ∧
    (commitTransaction w8Sys w8Dev).1.commit_queue = [] ∧
    (commitTransaction w8Sys w8Dev).2.2.2 = true := by
  have h1 := (commit_transaction_protocol w8SysE w8Dev).1 rfl
  have h2 := (commit_transaction_protocol w8Sys w8Dev).2 (by decide)
    (by decide) (by decide)
  refine ⟨h1, ?_, h2.2.2.2.1, h2.2.2.2.2.2⟩
  rw [h2.2.2.2.2.1]
  rfl

/-- Claim C9 (counterexample): a successful `alloc_block` decrements the
group counter but not always the superblock total: with
`s_free_blocks_count_lo = 0` and `s_free_blocks_count_hi = 1` (total
`2^32`, consistent with the two group descriptors) the saturating
decrement of the low half leaves the total unchanged. -/
theorem alloc_block_total_not_decremented :
    (allocBlockModel c9Fs 0).2 = Except.ok 2 ∧
    (allocBlockModel c9Fs 0).1.group_descs.map Ext4GroupDesc.free_blocks_count =
      [4, 4294967291] ∧
    c9Fs.sb.freeBlocksTotal = 2 ^ 32 ∧
    (allocBlockModel c9Fs 0).1.sb.freeBlocksTotal = 2 ^ 32 ∧
    ¬ ((allocBlockModel c9Fs 0).1.sb.freeBlocksTotal + 1 =
        c9Fs.sb.freeBlocksTotal) := by
  refine ⟨rfl, by decide, by decide, by decide, by decide⟩

/-- Claim C9 (amended): a group with free count 0 fails with `NoSpace`
leaving the state untouched; a successful allocation decrements the group
counter by exactly one and applies a saturating decrement to the low
`u32` half of the superblock total only, so the total decreases by
exactly one precisely when the low half is nonzero. -/
theorem alloc_block_counter_updates (fs : AllocFs) (g : Nat)
    (d : Ext4GroupDesc) (hg : fs.group_descs[g]? = some d)
    (hlo : d.bg_free_blocks_count_lo < 2 ^ 16)
    (hhi : d.bg_free_blocks_count_hi < 2 ^ 16) :
    (d.free_blocks_count = 0 →
      allocBlockModel fs g = (fs, .error .NoSpace)) ∧
    (∀ st' b, allocBlockModel fs g = (st', .ok b) →
      st'.group_descs.map Ext4GroupDesc.free_blocks_count =
        (fs.group_descs.map Ext4GroupDesc.free_blocks_count).set g
          (d.free_blocks_count - 1) ∧
      st'.sb.s_free_blocks_count_lo = fs.sb.s_free_blocks_count_lo - 1 ∧
      st'.sb.s_free_blocks_count_hi = fs.sb.s_free_blocks_count_hi ∧
      (0 < fs.sb.s_free_blocks_count_lo →
        st'.sb.freeBlocksTotal + 1 = fs.sb.freeBlocksTotal)) := by
  constructor
  · intro h0
    simp [allocBlockModel, hg, h0]
  · intro st' b hok
    have hc : d.free_blocks_count < 2 ^ 32 := by
      simp only [Ext4GroupDesc.free_blocks_count]
      have hmul : d.bg_free_blocks_count_hi * 2 ^ 16 ≤ (2 ^ 16 - 1) * 2 ^ 16 :=
        Nat.mul_le_mul_right (2 ^ 16) (by omega)
      omega
    simp only [allocBlockModel, hg] at hok
    by_cases h0 : d.free_blocks_count = 0
    · rw [if_pos h0] at hok
      have h2 := congrArg Prod.snd hok
      simp only [] at h2
      exact absurd h2 (by simp)
    · rw [if_neg h0] at hok
      rcases hfc : findClearFrom (fs.bitmaps g) fs.hint with _ | bit
      · rw [hfc] at hok
        have h2 := congrArg Prod.snd hok
        simp only [] at h2
        exact absurd h2 (by simp)
      · rw [hfc] at hok
        dsimp only [] at hok
        have h1 := congrArg Prod.fst hok
        dsimp only [] at h1
        subst h1
        refine ⟨?_, rfl, rfl, ?_⟩
        · rw [List.map_set]
          have hsplit : ∀ x : Nat, x < 2 ^ 32 →
              (x &&& 0xFFFF) + x / 2 ^ 16 % 2 ^ 16 * 2 ^ 16 = x := by
            intro x hx
            have hand : x &&& 0xFFFF = x % 2 ^ 16 := by
              have h3 := Nat.and_pow_two_sub_one_eq_mod x 16
              norm_num at h3
              exact h3
            have hdiv : x / 2 ^ 16 < 2 ^ 16 := by
              apply Nat.div_lt_of_lt_mul
              calc x < 2 ^ 32 := hx
                _ = 2 ^ 16 * 2 ^ 16 := by norm_num
            rw [hand, Nat.mod_eq_of_lt hdiv, Nat.mul_comm, Nat.mod_add_div]
          have hfb : Ext4GroupDesc.free_blocks_count
              { d with
                bg_free_blocks_count_lo := d.free_blocks_count - 1 &&& 0xFFFF
                bg_free_blocks_count_hi :=
                  (d.free_blocks_count - 1) / 2 ^ 16 % 2 ^ 16 } =
              d.free_blocks_count - 1 :=
            hsplit (d.free_blocks_count - 1) (by omega)
          rw [hfb]
        · intro hpos
          simp only [Ext4SuperblockCounts.freeBlocksTotal]
          omega

/-- Witness for the amended claim C9: the `NoSpace` guard at a zero
counter, and a normal allocation decrementing group counter and total. -/
theorem alloc_block_counter_updates_witness :
    allocBlockModel { w9Fs with group_descs := [⟨0, 0, 3, 0⟩] } 0 =
      ({ w9Fs with group_descs := [⟨0, 0, 3, 0⟩] }, .error .NoSpace) ∧
    ((allocBlockModel w9Fs 0).1.group_descs.map
        Ext4GroupDesc.free_blocks_count = [4] ∧
      (allocBlockModel w9Fs 0).1.sb.freeBlocksTotal + 1 =
        w9Fs.sb.freeBlocksTotal) := by
  constructor
  · exact (alloc_block_counter_updates
      { w9Fs with group_descs := [⟨0, 0, 3, 0⟩] } 0 ⟨0, 0, 3, 0⟩ rfl
      (by decide) (by decide)).1 rfl
  · have h := (alloc_block_counter_updates w9Fs 0 ⟨5, 0, 3, 0⟩ rfl (by decide)
      (by decide)).2 (allocBlockModel w9Fs 0).1 2 rfl
    exact ⟨h.1, h.2.2.2 (by decide)⟩

/-- Claim C10: with journaling enabled `Jbd2Dev::flush` is a complete
no-op — it neither writes the dirty single-slot buffer nor flushes the
underlying device — so a block modified through `buffer_mut` stays
unwritten until a `read_block` of a different id or an explicit
`write_block` forces it out; with journaling disabled `flush` writes the
dirty slot and flushes the device. -/
theorem jbd2_flush_journal_noop (d : Jbd2DevSt) (newBuf : List Nat)
    (id id2 : Nat) :
    (d.journal_use = true → jbd2Flush d = d) ∧
    (d.journal_use = false →
      jbd2Flush d = { d with inner := bdFlush d.inner }) ∧
    (d.journal_use = false → d.inner.is_dirty = true →
      d.inner.cached_block = some id →
      (jbd2Flush d).inner.devWrites =
        d.inner.devWrites ++ [(id, d.inner.buffer)] ∧
      (jbd2Flush d).inner.devFlushes = d.inner.devFlushes + 1) ∧
    (d.journal_use = true →
      (jbd2Flush
        { d with inner := bdModifyBuffer d.inner newBuf }).inner.devWrites =
        d.inner.devWrites ∧
      (jbd2Flush
        { d with inner := bdModifyBuffer d.inner newBuf }).inner.devFlushes =
        d.inner.devFlushes ∧
      (jbd2Flush
        { d with inner := bdModifyBuffer d.inner newBuf }).inner.buffer =
        newBuf) ∧
    (d.inner.cached_block = some id → id2 ≠ id →
      (bdReadBlock (bdModifyBuffer d.inner newBuf) id2).devWrites =
        d.inner.devWrites ++ [(id, newBuf)]) ∧
    (bdWriteBlock (bdModifyBuffer d.inner newBuf) id2).devWrites =
      d.inner.devWrites ++ [(id2, newBuf)] := by
  refine ⟨?_, ?_, ?_, ?_, ?_, ?_⟩
  · intro h
    rw [jbd2Flush, if_neg (by rw [h]; simp)]
  · intro h
    rw [jbd2Flush, if_pos h]
  · intro h hd hc
    rw [jbd2Flush, if_pos h]
    simp only [bdFlush, hd, if_pos rfl, hc]
    exact ⟨rfl, rfl⟩
  · intro h
    rw [jbd2Flush, if_neg (by rw [h]; simp)]
    exact ⟨rfl, rfl, rfl⟩
  · intro hc hne
    have hne2 : ¬ (id = id2) := fun hh => hne hh.symm
    simp [bdReadBlock, bdModifyBuffer, bdFlush, bdWriteBlock, hc, hne2]
  · rfl

/-- Witness for claim C10: a journaled dirty device is untouched by
`flush`; the same state with journaling off writes the slot to block 3 and
flushes the device once. -/
theorem jbd2_flush_journal_noop_witness :
    jbd2Flush w10Dev = w10Dev ∧
    (jbd2Flush w10DevOff).inner.devWrites = [(3, [9, 9])] ∧
    (jbd2Flush w10DevOff).inner.devFlushes = 1 := by
  have h1 := (jbd2_flush_journal_noop w10Dev [] 3 4).1 rfl
  have h2 := (jbd2_flush_journal_noop w10DevOff [] 3 4).2.2.1 rfl rfl rfl
  refine ⟨h1, ?_, ?_⟩
  · rw [h2.1]
    rfl
  · rw [h2.2]
    rfl

end Rsext4
